import Mathlib

/-!
# Verification of the AI Punk agent tool layer

Shallow embedding of the AI Punk VS Code extension's tool implementations
(`src/infrastructure/tools/*.ts`, `src/infrastructure/indexing/*.ts`,
`src/infrastructure/adapters/LangChainAdapter.ts`) and proofs about them.

Files are modelled as an association list from absolute path strings to
content strings.  Node's `path.resolve` is modelled textually (segment
normalisation, no symlink canonicalisation), exactly as the TypeScript
code uses it.  JavaScript string/array semantics that the tools rely on
(`String.prototype.split`, `String.prototype.replace` with a string
pattern — including ECMAScript's `GetSubstitution` on the replacement
string: `$$`, `$&`, `$` + backquote, `$` + quote — and
`Array.prototype.slice` with truthiness of `0`) are reproduced
faithfully.
-/

namespace AiPunk

/-- The filesystem: absolute path ↦ file content. -/
abbrev FS : Type := List (String × String)

/-- Look up a file's content by absolute path (first match). -/
def lookupFS (fs : FS) (p : String) : Option String :=
  match fs with
  | [] => none
  | e :: rest => if e.1 = p then some e.2 else lookupFS rest p

/-- Write `c` at path `p`: overwrite the existing entry, or append a new one. -/
def setFS (fs : FS) (p c : String) : FS :=
  match fs with
  | [] => [(p, c)]
  | e :: rest => if e.1 = p then (p, c) :: rest else e :: setFS rest p c

/-- Delete the entry at path `p` (`fs.unlink`). -/
def removeFS (fs : FS) (p : String) : FS :=
  match fs with
  | [] => []
  | e :: rest => if e.1 = p then removeFS rest p else e :: removeFS rest p

/-- JavaScript `s.startsWith(pre)` (also `String.prototype.startsWith` as
used by the tools' workspace guard): `pre` is a prefix of `s`. -/
def strStartsWith (s pre : String) : Bool :=
  pre.data.isPrefixOf s.data

/-- Split a character list on `/` (the effect of `String.splitOn "/"`,
written structurally so it evaluates in the kernel).  `cur` holds the
current segment's characters in reverse. -/
def splitSlashGo (cur : List Char) : List Char → List (List Char)
  | [] => [cur.reverse]
  | c :: rest =>
    if c = '/' then cur.reverse :: splitSlashGo [] rest
    else splitSlashGo (c :: cur) rest

/-- The `/`-separated segments of a path string. -/
def splitSlash (s : String) : List (List Char) :=
  splitSlashGo [] s.data

/-- Interleave `sep` between the given pieces (`String.intercalate`). -/
def joinWith (sep : List Char) : List (List Char) → List Char
  | [] => []
  | [x] => x
  | x :: y :: rest => x ++ sep ++ joinWith sep (y :: rest)

/-- Normalise a list of path segments: drop empty and `.` segments, let `..`
pop the previously accepted segment (staying at the filesystem root when
there is none).  `stack` holds the accepted segments in reverse. -/
def normSegs (stack : List (List Char)) : List (List Char) → List (List Char)
  | [] => stack.reverse
  | seg :: rest =>
    if seg = [] ∨ seg = ['.'] then normSegs stack rest
    else if seg = ['.', '.'] then normSegs stack.tail rest
    else normSegs (seg :: stack) rest

/-- Node `path.resolve(root, p)` for an absolute `root` (POSIX): if `p` is
absolute it is normalised on its own, otherwise it is appended to `root`
before normalisation.  Purely textual — symlinks are not followed,
mirroring the TypeScript code's use of `path.resolve`. -/
def resolvePath (root p : String) : String :=
  let segs :=
    if strStartsWith p "/" then splitSlash p
    else splitSlash root ++ splitSlash p
  ('/' :: joinWith ['/'] (normSegs [] segs)).asString

/-- Node `path.basename`: the last `/`-separated segment. -/
def basename (p : String) : String :=
  ((splitSlash p).getLastD p.data).asString

/-- Spec-side notion used to state the sandbox claims: `p` is the workspace
root itself or a descendant of it. -/
def inWorkspace (root p : String) : Bool :=
  p = root || strStartsWith p (root ++ "/")

/-- `String.intercalate sep` over strings, via `joinWith`. -/
def joinWithStr (sep : String) (parts : List String) : String :=
  (joinWith sep.data (parts.map String.data)).asString

/-- Count the non-overlapping, left-to-right occurrences of `old` in the
remaining characters, as computed by `content.split(old_string).length - 1`
in `SearchReplaceTool` for the non-empty `old_string` the tool guarantees
(empty `old_string` is rejected by the tool's parameter validation before
this count is ever taken).  `skip` is the number of characters still inside
the occurrence matched last. -/
def countOccGo (old : List Char) : List Char → Nat → Nat
  | [], _ => 0
  | c :: rest, skip =>
    if skip > 0 then countOccGo old rest (skip - 1)
    else if old.isPrefixOf (c :: rest) then
      countOccGo old rest (old.length - 1) + 1
    else countOccGo old rest 0

/-- Occurrence count of `old` in `s`, per `s.split(old).length - 1`. -/
def countOccurrences (old s : String) : Nat :=
  countOccGo old.data s.data 0

/-- JavaScript's backquote character (code 96): `$` followed by it in a
replacement template selects the text before the match. -/
def backquoteChar : Char := Char.ofNat 96

/-- The single-quote character (code 39): `$` followed by it in a
replacement template selects the text after the match. -/
def quoteChar : Char := Char.ofNat 39

/-- ECMAScript `GetSubstitution` for a string search value, as
`String.prototype.replace` applies it to a string replacement even when
the pattern is a string: `$$` yields `$`, `$&` the matched substring,
`$` + backquote the text before the match, `$` + quote the text after
the match; any other `$` (including a trailing one, `$1` through `$9`
and `$<name>`, since a string pattern has no capture groups) stays
literal. -/
def getSubstitution (matched before after : List Char) : List Char → List Char
  | [] => []
  | [c] => [c]
  | c :: d :: rest =>
    if c = '$' then
      if d = '$' then '$' :: getSubstitution matched before after rest
      else if d = '&' then matched ++ getSubstitution matched before after rest
      else if d = backquoteChar then before ++ getSubstitution matched before after rest
      else if d = quoteChar then after ++ getSubstitution matched before after rest
      else c :: getSubstitution matched before after (d :: rest)
    else c :: getSubstitution matched before after (d :: rest)

/-- JavaScript `s.replace(old, template)` with a string pattern: find
the first (leftmost) occurrence of `old`, replace it by the
`GetSubstitution` of the template (matched substring `old`, the text
before and after the match as context), keep the rest; `s` is unchanged
when `old` is absent.  `seen` holds the characters before the current
position in reverse. -/
def replaceFirstGo (old template : List Char) (seen : List Char) : List Char → List Char
  | [] => []
  | c :: rest =>
    if old.isPrefixOf (c :: rest) then
      getSubstitution old seen.reverse ((c :: rest).drop old.length) template
        ++ (c :: rest).drop old.length
    else c :: replaceFirstGo old template (c :: seen) rest

/-- `String` wrapper for JavaScript `s.replace(old, new)`. -/
def replaceFirst (old new s : String) : String :=
  (replaceFirstGo old.data new.data [] s.data).asString

/-- The claim's literal splice ("that occurrence replaced by
new_string"), stated from the claim's words to be compared with
`replaceFirstGo`: the two agree exactly when the template contains no
`$`. -/
def spliceFirst (old template : List Char) : List Char → List Char
  | [] => []
  | c :: rest =>
    if old.isPrefixOf (c :: rest) then template ++ (c :: rest).drop old.length
    else c :: spliceFirst old template rest

/-- Remove a trailing `\r` from a reversed line accumulator. -/
def stripTrailingCR (cur : List Char) : List Char :=
  match cur with
  | '\r' :: t => t
  | _ => cur

/-- Split on the separator `\r?\n` (JavaScript `content.split(/\r?\n/)`).
`cur` holds the current line's characters in reverse. -/
def splitLinesGo (cur : List Char) : List Char → List (List Char)
  | [] => [cur.reverse]
  | c :: rest =>
    if c = '\n' then (stripTrailingCR cur).reverse :: splitLinesGo [] rest
    else splitLinesGo (c :: cur) rest

/-- `content.split(/\r?\n/)` as a list of line strings. -/
def splitLines (s : String) : List String :=
  (splitLinesGo [] s.data).map List.asString

/-- JavaScript `Array.prototype.slice(s, e)` for integer arguments:
negative indices count from the end, both are clamped to `[0, length]`,
and the elements of the half-open range `[s', e')` are returned. -/
def jsSlice {α : Type} (l : List α) (s e : Int) : List α :=
  let len : Int := l.length
  let s' : Int := if s < 0 then max (len + s) 0 else min s len
  let e' : Int := if e < 0 then max (len + e) 0 else min e len
  (l.take e'.toNat).drop s'.toNat

/-! ## The search_replace tool (`SearchReplaceTool.ts`) -/

/-- Message for missing `file_path` / `old_string` / `new_string`. -/
def srMissingMsg : String :=
  "Error: Missing required parameters. Need file_path, old_string, and new_string."

/-- Message when the resolved target fails the workspace prefix check. -/
def srBoundsMsg : String :=
  "Error: Cannot modify files outside the workspace for security reasons."

/-- Message when the target file does not exist. -/
def srNoFileMsg (fp : String) : String :=
  "Error: File \"" ++ fp ++ "\" not found."

/-- Message when `old_string` has zero occurrences. -/
def srNotFoundMsg (fp : String) : String :=
  "Error: The specified old_string was not found in \"" ++ fp ++
    "\". Please check the exact text including whitespace and indentation."

/-- Message when `old_string` occurs more than once. -/
def srAmbiguousMsg (n : Nat) (fp : String) : String :=
  "Error: The old_string appears " ++ toString n ++ " times in \"" ++ fp ++
    "\". Please provide more specific context to uniquely identify the instance you want to replace."

/-- Success message of `search_replace`. -/
def srSuccessMsg (fp : String) : String :=
  "Successfully replaced text in \"" ++ fp ++ "\". Changed 1 occurrence."

/-- The `search_replace` tool (`searchReplaceTool.func` after JSON parsing):
validate parameters, resolve the path, check the workspace string-prefix
guard, read the file, count occurrences of `old` and replace only when the
count is exactly one.  Returns the observation string and the filesystem
after the call. -/
def searchReplace (fs : FS) (root fp old new : String) : String × FS :=
  if fp = "" ∨ old = "" then (srMissingMsg, fs)
  else
    let target := resolvePath root fp
    if strStartsWith target root then
      match lookupFS fs target with
      | none => (srNoFileMsg fp, fs)
      | some content =>
        let occ := countOccurrences old content
        if occ = 0 then (srNotFoundMsg fp, fs)
        else if occ > 1 then (srAmbiguousMsg occ fp, fs)
        else (srSuccessMsg fp, setFS fs target (replaceFirst old new content))
    else (srBoundsMsg, fs)

/-! ## The delete_file tool (`DeleteFileTool.ts`) -/

/-- Out-of-workspace message of `delete_file`. -/
def delBoundsMsg : String :=
  "Error: Cannot delete files outside the workspace for security reasons."

/-- Message when the file to delete does not exist. -/
def delNoFileMsg (fp : String) : String :=
  "Error: File \"" ++ fp ++ "\" does not exist."

/-- Message refusing to delete a denylisted file. -/
def delProtectedMsg (name : String) : String :=
  "Error: Cannot delete critical file \"" ++ name ++ "\" for safety reasons."

/-- Success message of `delete_file`. -/
def delSuccessMsg (fp : String) : String :=
  "Successfully deleted file \"" ++ fp ++ "\"."

/-- The fixed denylist checked by `delete_file` (`DeleteFileTool.ts`). -/
def criticalFiles : List String :=
  ["package.json", "tsconfig.json", ".gitignore", "README.md"]

/-- The `delete_file` tool: resolve, workspace string-prefix guard,
existence check, critical-file denylist, then unlink. -/
def deleteFile (fs : FS) (root fp : String) : String × FS :=
  let target := resolvePath root fp
  if strStartsWith target root then
    match lookupFS fs target with
    | none => (delNoFileMsg fp, fs)
    | some _ =>
      if criticalFiles.contains (basename target) then
        (delProtectedMsg (basename target), fs)
      else (delSuccessMsg fp, removeFS fs target)
  else (delBoundsMsg, fs)

/-! ## The edit_file tool (`EditFileTool.ts`) -/

/-- Success message of `edit_file`. -/
def editSuccessMsg (fp : String) : String :=
  "Successfully wrote to " ++ fp ++ "."

/-- The `edit_file` tool: resolve the path, create parent directories and
write the full content.  The TypeScript code performs no workspace bounds
check and no critical-file check before writing. -/
def editFile (fs : FS) (root fp content : String) : String × FS :=
  let target := resolvePath root fp
  (editSuccessMsg fp, setFS fs target content)

/-! ## The read_file tool (`ReadFileTool.ts`, the `DynamicTool` version) -/

/-- `const start = startLine ? Math.max(0, startLine - 1) : 0;` —
JavaScript truthiness makes an explicit `0` behave like an absent bound. -/
def rfStart (s? : Option Int) : Int :=
  match s? with
  | none => 0
  | some s => if s = 0 then 0 else max 0 (s - 1)

/-- `const end = endLine ? Math.min(lines.length, endLine) : lines.length;` -/
def rfEnd (len : Int) (e? : Option Int) : Int :=
  match e? with
  | none => len
  | some e => if e = 0 then len else min len e

/-- `lines.slice(start, end)`: the lines selected by a ranged read. -/
def readFileSelect (lines : List String) (s? e? : Option Int) : List String :=
  jsSlice lines (rfStart s?) (rfEnd lines.length e?)

/-- The claim's reading of a ranged `read_file`: the 1-indexed inclusive
range of lines after clamping a start below `1` to the first line and an
end beyond the last line to the last line.  Stated from the claim's words
to be compared with `readFileSelect`, the embedding of the code. -/
def claimClampedRange (s e : Int) (lines : List String) : List String :=
  (lines.take (min (lines.length : Int) e).toNat).drop ((max 1 s).toNat - 1)

/-- The `read_file` tool's observation: resolve the path against the root
(with no workspace bounds check), read the file, and either return the
whole content or the selected line range.  A missing file reports the
resolved path (`error.path`). -/
def readFileObservation (fs : FS) (root fp : String) (s? e? : Option Int) : String :=
  let target := resolvePath root fp
  match lookupFS fs target with
  | none => "Error: File not found at " ++ target
  | some content =>
    match s?, e? with
    | none, none => "Contents of " ++ fp ++ ":\n" ++ content
    | _, _ =>
      let lines := splitLines content
      let start := rfStart s?
      let stop := rfEnd lines.length e?
      "Contents of " ++ fp ++ " (lines " ++ toString (start + 1) ++ "-" ++
        toString stop ++ "):\n" ++
        joinWithStr "\n" (readFileSelect lines s? e?)

/-! ## The grep_search tool (`GrepSearchTool.ts`)

The tool shells out to ripgrep with `--max-count=50`.  Ripgrep's matching
itself is external; it is modelled here through a caller-supplied
line-match predicate.  Modelled from ripgrep's documented `--max-count`
semantics: the flag limits the number of matching lines *per file
searched*, so each file contributes at most `grepMaxCount` lines while the
total across files is not limited. -/

/-- The cap the tool passes as `--max-count=50` (`GrepSearchTool.ts`). -/
def grepMaxCount : Nat := 50

/-- Matching lines ripgrep reports for one file under `--max-count`. -/
def rgFileMatches (matchLine : String → Bool) (content : List String) : List String :=
  (content.filter matchLine).take grepMaxCount

/-- The matches `grep_search` reports: per file, the matching lines capped
at `grepMaxCount`; files without matches are omitted (ripgrep `--heading`
output lists only files that matched). -/
def grepSearch (matchLine : String → Bool) (files : List (String × List String)) :
    List (String × List String) :=
  (files.map (fun f => (f.1, rgFileMatches matchLine f.2))).filter (fun f => ¬ f.2.isEmpty)

/-- Total number of matches in a grep observation. -/
def totalMatches (results : List (String × List String)) : Nat :=
  (results.map (fun f => f.2.length)).sum

/-! ## The semantic index (`CodebaseSearchTool.ts`, `CodebaseIndexer.ts`)

The vector store is LangChain's `FaissStore` (external).  The persisted
index is modelled as its chunk list together with the identifier of the
embedding model it was built with; the latter field exists only so the
staleness claim can be stated — `FaissStore.save`/`load` in the code
neither persists nor compares any model identifier. -/

/-- A persisted index: the embedding-model id it was built under, plus its
`(sourcePath, chunkText)` entries (vectors abstracted away). -/
structure PersistedIndex where
  builtModelId : String
  entries : List (String × String)
deriving DecidableEq

/-- `CodebaseIndexer.indexWorkspace`: the persisted store is built with
whatever embeddings are currently configured; no identifier is written
beyond what the store itself carries. -/
def indexWorkspace (cfgModelId : String) (chunks : List (String × String)) : PersistedIndex :=
  { builtModelId := cfgModelId, entries := chunks }

/-- `CodebaseSearcher.loadIndex`: if the index files exist on disk the
store is loaded as-is — the code performs no comparison between the
store's embedding model and the currently configured one. -/
def loadIndex (disk : Option PersistedIndex) : Option PersistedIndex :=
  disk

/-- The observation returned when no index is loaded. -/
def notIndexedMsg : String :=
  "The codebase has not been indexed yet. You may need to run the indexing command first."

/-- `CodebaseSearcher.search`'s formatting of similarity results. -/
def formatResults (results : List (String × String)) (query : String) : String :=
  if results.isEmpty then "No results found for query: \"" ++ query ++ "\""
  else
    joinWithStr "\n\n"
      (results.map (fun r => "File: " ++ r.1 ++ "\n\n---\n" ++ r.2 ++ "\n---"))

/-- `CodebaseSearcher.search`: with no store loaded, the "not indexed"
observation; otherwise the formatted similarity results.  `sim` is the
external `FaissStore.similaritySearch` seam: it embeds the query with the
currently configured model `cfgModelId` and ranks the store's entries. -/
def codebaseSearch (sim : String → PersistedIndex → String → List (String × String))
    (cfgModelId : String) (store : Option PersistedIndex) (query : String) : String :=
  match store with
  | none => notIndexedMsg
  | some st => formatResults (sim cfgModelId st query) query

/-! ## The agent loop (`LangChainAdapter.ts`)

Modelled from the spec: the Thought/Action/Observation loop itself is
LangChain's `AgentExecutor` (library code, not part of this repository);
the repository only configures it with `maxIterations: 10`
(`LangChainAdapter.initializeAgent`).  Spec §4.6: the model yields either
a tool action or a final answer; an action is dispatched and its
observation appended; when the iteration count reaches the ceiling the
loop forces a `Final` step with a truncation notice. -/

/-- `maxIterations: 10` from `LangChainAdapter.initializeAgent`. -/
def maxIterations : Nat := 10

/-- One output of the model: a tool action or a final answer. -/
inductive ModelOut where
  | action (tool : String) (input : String)
  | final (answer : String)

/-- One step of the transcript. -/
structure Step where
  action : Option (String × String)
  observation : Option String
  isFinal : Bool

/-- A terminal step (a model-produced final answer or the forced
truncation step at the iteration ceiling). -/
def finalStep : Step := { action := none, observation := none, isFinal := true }

/-- The loop: ask the model; on a final answer append a terminal step and
stop; on an action dispatch it, append the observed step, and continue;
with the budget exhausted, force a terminal step. -/
def runLoop (model : List Step → ModelOut) (dispatch : String → String → String) :
    Nat → List Step → List Step
  | 0, transcript => transcript ++ [finalStep]
  | n + 1, transcript =>
    match model transcript with
    | .final _ => transcript ++ [finalStep]
    | .action t i =>
      runLoop model dispatch n
        (transcript ++ [{ action := some (t, i), observation := some (dispatch t i),
                          isFinal := false }])

/-- Run the agent loop from an empty transcript with the configured
iteration budget. -/
def agentRun (model : List Step → ModelOut) (dispatch : String → String → String) :
    List Step :=
  runLoop model dispatch maxIterations []

/-! ## Helper lemmas -/

/-- Dropping `a` or `b` elements gives the same list when the counts are
equal or both at least the list's length. -/
theorem drop_congr_of {α : Type} (X : List α) (a b : Nat)
    (h : a = b ∨ (X.length ≤ a ∧ X.length ≤ b)) : X.drop a = X.drop b := by
  rcases h with h | ⟨h1, h2⟩
  · rw [h]
  · rw [List.drop_eq_nil_of_le h1, List.drop_eq_nil_of_le h2]

/-- A replacement template without `$` is its own substitution. -/
theorem getSubstitution_no_dollar (matched before after : List Char) :
    ∀ (t : List Char), '$' ∉ t → getSubstitution matched before after t = t := by
  intro t
  induction t with
  | nil => intro _; rfl
  | cons c rest ih =>
    intro h
    rw [List.mem_cons, not_or] at h
    obtain ⟨h1, h2⟩ := h
    cases rest with
    | nil => rfl
    | cons d rest2 =>
      simp only [getSubstitution]
      rw [if_neg (Ne.symm h1), ih h2]

/-- For a `$`-free template, JavaScript's replace is the literal splice. -/
theorem replaceFirstGo_no_dollar (old template : List Char)
    (hd : '$' ∉ template) :
    ∀ (s seen : List Char),
      replaceFirstGo old template seen s = spliceFirst old template s := by
  intro s
  induction s with
  | nil => intro _; rfl
  | cons c rest ih =>
    intro seen
    simp only [replaceFirstGo, spliceFirst]
    by_cases hp : old.isPrefixOf (c :: rest) = true
    · rw [if_pos hp, if_pos hp,
        getSubstitution_no_dollar old seen.reverse ((c :: rest).drop old.length) template hd]
    · rw [if_neg hp, if_neg hp, ih]

/-- The loop adds at most `n + 1` steps to the transcript and always ends
in a step marked final. -/
theorem runLoop_bound (model : List Step → ModelOut)
    (dispatch : String → String → String) :
    ∀ (n : Nat) (t : List Step),
      (runLoop model dispatch n t).length ≤ t.length + n + 1
      ∧ ∃ s, (runLoop model dispatch n t).getLast? = some s ∧ s.isFinal = true := by
  intro n
  induction n with
  | zero =>
    intro t
    constructor
    · simp [runLoop]
    · exact ⟨finalStep, by simp [runLoop, List.getLast?_concat], rfl⟩
  | succ n ih =>
    intro t
    simp only [runLoop]
    cases model t with
    | final a =>
      constructor
      · simp only [List.length_append, List.length_singleton]
        omega
      · exact ⟨finalStep, by simp [List.getLast?_concat], rfl⟩
    | action tool input =>
      obtain ⟨h1, h2⟩ := ih
        (t ++ [{ action := some (tool, input),
                 observation := some (dispatch tool input), isFinal := false }])
      refine ⟨?_, h2⟩
      refine Nat.le_trans h1 ?_
      simp only [List.length_append, List.length_singleton]
      omega

/-! ## The claims -/

/-- C1: the spec claims `read_file("../etc/passwd")` with root `/proj`
fails with `OutOfBounds` and that no tool receives a path outside the
workspace root.  The `read_file` implementation performs no bounds check
at all: it resolves the path against the root and returns the contents of
the out-of-root file. -/
theorem readFile_reads_outside_root :
    readFileObservation [("/etc/passwd", "root:x:0:0:root:/root:/bin/bash")]
        "/proj" "../etc/passwd" none none
      = "Contents of ../etc/passwd:\nroot:x:0:0:root:/root:/bin/bash"
    ∧ inWorkspace "/proj" (resolvePath "/proj" "../etc/passwd") = false :=
  ⟨rfl, rfl⟩

/-- C2 counterexample: the claim says exactly one occurrence causes the
file to be rewritten with that occurrence replaced by `new_string`.
`content.replace(old, new)` applies ECMAScript's substitution to a
string replacement even for a string pattern: replacing the unique
`"foo"` of `"foo bar"` by `new_string` `"$$"` writes `"$ bar"`, not the
literal `"$$ bar"`. -/
theorem searchReplace_dollar_subst_cex :
    searchReplace [("/proj/a.txt", "foo bar")] "/proj" "a.txt" "foo" "$$"
      = (srSuccessMsg "a.txt", [("/proj/a.txt", "$ bar")])
    ∧ ("$ bar" : String) ≠ "$$ bar" :=
  ⟨rfl, by decide⟩

/-- C2 (amended): for `search_replace` on an existing in-bounds file
(with the non-empty arguments the tool's parameter validation requires):
zero occurrences of `old` gives the `NotFound` error naming the file,
more than one occurrence gives the `Ambiguous` error reporting the
count, and exactly one occurrence rewrites the file with that occurrence
replaced by the `GetSubstitution` of `new` (the semantics of
`content.replace(old, new)`) and reports success naming the path; when
`new` contains no `$` the occurrence is replaced by the literal `new`. -/
theorem searchReplace_trichotomy (fs : FS) (root fp old new : String)
    (hfp : fp ≠ "") (hold : old ≠ "")
    (hb : strStartsWith (resolvePath root fp) root = true)
    (content : String)
    (hc : lookupFS fs (resolvePath root fp) = some content) :
    (countOccurrences old content = 0 →
      searchReplace fs root fp old new = (srNotFoundMsg fp, fs))
    ∧ (1 < countOccurrences old content →
      searchReplace fs root fp old new =
        (srAmbiguousMsg (countOccurrences old content) fp, fs))
    ∧ (countOccurrences old content = 1 →
      searchReplace fs root fp old new =
        (srSuccessMsg fp, setFS fs (resolvePath root fp) (replaceFirst old new content)))
    ∧ (countOccurrences old content = 1 → '$' ∉ new.data →
      searchReplace fs root fp old new =
        (srSuccessMsg fp, setFS fs (resolvePath root fp)
          ((spliceFirst old.data new.data content.data).asString))) := by
  have hv : ¬ (fp = "" ∨ old = "") := by simp [hfp, hold]
  refine ⟨fun h0 => ?_, fun h2 => ?_, fun h1 => ?_, fun h1 hd => ?_⟩
  · simp [searchReplace, hv, hb, hc, h0]
  · have hne : countOccurrences old content ≠ 0 := by omega
    simp [searchReplace, hv, hb, hc, hne, h2]
  · simp [searchReplace, hv, hb, hc, h1]
  · have h3 : searchReplace fs root fp old new =
        (srSuccessMsg fp, setFS fs (resolvePath root fp) (replaceFirst old new content)) := by
      simp [searchReplace, hv, hb, hc, h1]
    rw [h3]
    simp only [replaceFirst]
    rw [replaceFirstGo_no_dollar old.data new.data hd]

/-- C2 witness: the spec §8 scenario — replacing the unique occurrence of
`"foo bar"` in `"foo bar\nbaz foo\n"` by the `$`-free `"X"` succeeds and
yields `"X\nbaz foo\n"`. -/
theorem searchReplace_trichotomy_witness :
    searchReplace [("/proj/a.txt", "foo bar\nbaz foo\n")] "/proj" "a.txt" "foo bar" "X"
      = (srSuccessMsg "a.txt", [("/proj/a.txt", "X\nbaz foo\n")]) := by
  have h := searchReplace_trichotomy [("/proj/a.txt", "foo bar\nbaz foo\n")]
    "/proj" "a.txt" "foo bar" "X" (by decide) (by decide) (by decide)
    "foo bar\nbaz foo\n" (by decide)
  rw [h.2.2.2 (by decide) (by decide)]
  rfl

/-- C3: when `old` occurs zero times or more than once in the target
file, `search_replace` leaves the filesystem unchanged — every error
branch returns before the write. -/
theorem searchReplace_error_no_write (fs : FS) (root fp old new content : String)
    (hc : lookupFS fs (resolvePath root fp) = some content)
    (h : countOccurrences old content = 0 ∨ 1 < countOccurrences old content) :
    (searchReplace fs root fp old new).2 = fs := by
  by_cases hv : fp = "" ∨ old = ""
  · simp [searchReplace, hv]
  · simp only [searchReplace, if_neg hv]
    by_cases hb : strStartsWith (resolvePath root fp) root
    · simp only [hb, if_true, hc]
      rcases h with h0 | h2
      · simp [h0]
      · rw [if_neg (by omega), if_pos h2]
    · simp [hb]

/-- C3 witness: a file containing `"foo"` twice (spec §8 scenario) is
left unchanged by `search_replace(a.txt, "foo", "bar")`. -/
theorem searchReplace_error_no_write_witness :
    (searchReplace [("/proj/a.txt", "foo foo")] "/proj" "a.txt" "foo" "bar").2
      = [("/proj/a.txt", "foo foo")] :=
  searchReplace_error_no_write [("/proj/a.txt", "foo foo")] "/proj" "a.txt"
    "foo" "bar" "foo foo" (by decide) (Or.inr (by decide))

/-- C4 counterexample: the claim says a full overwrite via `edit_file` of
a denylisted base name fails with `ProtectedFile` and the file is not
overwritten.  The `edit_file` implementation performs no denylist check:
overwriting `package.json` succeeds and replaces its content. -/
theorem editFile_overwrites_protected_cex :
    editFile [("/proj/package.json", "old")] "/proj" "package.json" "new"
      = (editSuccessMsg "package.json", [("/proj/package.json", "new")])
    ∧ criticalFiles.contains "package.json" = true
    ∧ ("new" : String) ≠ "old" :=
  ⟨rfl, rfl, by decide⟩

/-- C4 (amended): only `delete_file` checks the critical-file denylist —
an existing in-bounds file whose base name is denylisted is not deleted
and the protected-file error is reported — while `edit_file`
unconditionally writes the given content at the resolved path, with no
denylist check. -/
theorem delete_denylist_blocks (fs : FS) (root fp : String)
    (hb : strStartsWith (resolvePath root fp) root = true)
    (c : String) (hc : lookupFS fs (resolvePath root fp) = some c)
    (hcrit : criticalFiles.contains (basename (resolvePath root fp)) = true) :
    deleteFile fs root fp = (delProtectedMsg (basename (resolvePath root fp)), fs)
    ∧ ∀ (fs2 : FS) (p2 content : String),
        editFile fs2 root p2 content
          = (editSuccessMsg p2, setFS fs2 (resolvePath root p2) content) := by
  refine ⟨?_, fun fs2 p2 content => rfl⟩
  have hcrit' : basename (resolvePath root fp) ∈ criticalFiles := by
    simpa using hcrit
  simp [deleteFile, hb, hc, hcrit']

/-- C4 witness: deleting `package.json` in the workspace is refused and
the filesystem is unchanged. -/
theorem delete_denylist_blocks_witness :
    deleteFile [("/proj/package.json", "{}")] "/proj" "package.json"
      = (delProtectedMsg "package.json", [("/proj/package.json", "{}")]) := by
  have h := delete_denylist_blocks [("/proj/package.json", "{}")] "/proj"
    "package.json" (by decide) "{}" (by decide) (by decide)
  rw [h.1]
  rfl

/-- C5 counterexample: the claim says every input whose resolved target
is neither the root nor a descendant fails with an out-of-bounds error
and nothing is modified.  The guard is a plain string-prefix test on the
textually resolved path, so with root `/proj` the input `../proj2/x`
resolves to `/proj2/x` — outside the workspace — yet passes the check,
and `search_replace` modifies that outside file and reports success. -/
theorem searchReplace_prefix_escape_cex :
    inWorkspace "/proj" (resolvePath "/proj" "../proj2/x") = false
    ∧ searchReplace [("/proj2/x", "hello")] "/proj" "../proj2/x" "hello" "bye"
        = (srSuccessMsg "../proj2/x", [("/proj2/x", "bye")])
    ∧ ([("/proj2/x", "bye")] : FS) ≠ [("/proj2/x", "hello")] :=
  ⟨rfl, rfl, by decide⟩

/-- C5 (amended): when the textually resolved target does not carry the
workspace root as a string prefix, `search_replace` and `delete_file`
fail with their out-of-bounds errors and leave the filesystem unchanged;
the guard is only this string-prefix test on the textual resolution — no
symlink canonicalisation — and a resolved path in a sibling directory
whose name extends the root's (such as `/proj2` under root `/proj`)
passes it and is modified. -/
theorem out_of_bounds_rejected (fs : FS) (root fp old new : String)
    (hfp : fp ≠ "") (hold : old ≠ "")
    (h : strStartsWith (resolvePath root fp) root = false) :
    searchReplace fs root fp old new = (srBoundsMsg, fs)
    ∧ deleteFile fs root fp = (delBoundsMsg, fs) := by
  have hv : ¬ (fp = "" ∨ old = "") := by simp [hfp, hold]
  constructor
  · simp [searchReplace, hv, h]
  · simp [deleteFile, h]

/-- C5 witness: an absolute-path override `/etc/passwd` under root
`/proj` is rejected by both tools with no modification. -/
theorem out_of_bounds_rejected_witness :
    searchReplace [] "/proj" "/etc/passwd" "a" "b" = (srBoundsMsg, [])
    ∧ deleteFile [] "/proj" "/etc/passwd" = (delBoundsMsg, []) :=
  out_of_bounds_rejected [] "/proj" "/etc/passwd" "a" "b"
    (by decide) (by decide) (by decide)

/-- C6: for every model behaviour and every dispatch function, the agent
loop ends in a step marked final and its transcript has at most
`maxIterations + 1` steps, with `maxIterations` configured to `10`
(`LangChainAdapter.ts`, `maxIterations: 10`). -/
theorem agent_loop_terminates (model : List Step → ModelOut)
    (dispatch : String → String → String) :
    (agentRun model dispatch).length ≤ maxIterations + 1
    ∧ (∃ s, (agentRun model dispatch).getLast? = some s ∧ s.isFinal = true)
    ∧ maxIterations = 10 := by
  obtain ⟨h1, h2⟩ := runLoop_bound model dispatch maxIterations []
  exact ⟨by simpa using h1, h2, rfl⟩

/-- C7 counterexample: the claim says a `Load` of an index built under
embedding-model id `A` while configured for id `B`, followed by `Query`,
returns the "not indexed" observation.  `loadIndex` performs no model-id
comparison: the store is served as loaded and the query returns formatted
similarity results from the mismatched embedding space. -/
theorem stale_index_served_cex :
    codebaseSearch (fun _ _ _ => [("f.ts", "chunk")]) "B"
        (loadIndex (some (indexWorkspace "A" [("f.ts", "chunk")]))) "q"
      = "File: f.ts\n\n---\nchunk\n---"
    ∧ (indexWorkspace "A" [("f.ts", "chunk")]).builtModelId ≠ "B"
    ∧ "File: f.ts\n\n---\nchunk\n---" ≠ notIndexedMsg :=
  ⟨rfl, by decide, by decide⟩

/-- C7 (amended): `loadIndex` ignores any embedding-model identifier —
whenever a persisted index exists it is served, and `Query` returns the
similarity results computed against it regardless of the currently
configured model id; the "not indexed" observation is returned exactly
when no persisted index exists. -/
theorem loadIndex_ignores_model_id
    (sim : String → PersistedIndex → String → List (String × String))
    (cfgModelId query : String) (idx : PersistedIndex) :
    codebaseSearch sim cfgModelId (loadIndex (some idx)) query
      = formatResults (sim cfgModelId idx query) query
    ∧ codebaseSearch sim cfgModelId (loadIndex none) query = notIndexedMsg :=
  ⟨rfl, rfl⟩

/-- C8 counterexample: the claim says `grep_search` returns at most 50
matches in total.  The tool passes `--max-count=50` to ripgrep, which
caps matching lines per file searched: two files with 51 matching lines
each produce 100 reported matches, exceeding the cap. -/
theorem grep_total_exceeds_cap_cex :
    grepMaxCount < totalMatches (grepSearch (fun _ => true)
      [("a.txt", List.replicate 51 "match"), ("b.txt", List.replicate 51 "match")]) := by
  decide

/-- C8 (amended): every file entry in a `grep_search` observation
contributes at most `grepMaxCount` (50) matching lines; the cap is per
file, so the total across files may exceed 50. -/
theorem grep_cap_per_file (matchLine : String → Bool)
    (files : List (String × List String)) (entry : String × List String)
    (h : entry ∈ grepSearch matchLine files) :
    entry.2.length ≤ grepMaxCount := by
  simp only [grepSearch, List.mem_filter, List.mem_map] at h
  obtain ⟨⟨f, _, rfl⟩, -⟩ := h
  exact List.length_take_le _ _

/-- C8 witness: a file with 51 matching lines appears in the observation
with exactly 50 of them, within the per-file cap. -/
theorem grep_cap_per_file_witness :
    (("a.txt", List.replicate 50 "match") : String × List String).2.length ≤ grepMaxCount :=
  grep_cap_per_file (fun _ => true) [("a.txt", List.replicate 51 "match")]
    ("a.txt", List.replicate 50 "match") (by decide)

/-- C9 counterexample: the claim says the computed count for file content
`"aaa"` and `old_string` `"aa"` is 2, making the call fail as ambiguous
with the file unchanged.  The split-based count is non-overlapping and
left-to-right, so it is 1, and the call succeeds and rewrites the file. -/
theorem count_nonoverlapping_cex :
    countOccurrences "aa" "aaa" ≠ 2
    ∧ (searchReplace [("/proj/a.txt", "aaa")] "/proj" "a.txt" "aa" "X").1
        ≠ srAmbiguousMsg 2 "a.txt"
    ∧ (searchReplace [("/proj/a.txt", "aaa")] "/proj" "a.txt" "aa" "X").2
        ≠ [("/proj/a.txt", "aaa")] := by
  refine ⟨by decide, by decide, by decide⟩

/-- C9 (amended): `search_replace` counts occurrences non-overlappingly,
left to right (split segments minus one): for content `"aaa"` and
`old_string` `"aa"` the count is 1, so the call succeeds and replaces the
leftmost occurrence, turning the file into `"Xa"` for `new_string`
`"X"` — even though `"aa"` occurs twice under overlapping counting. -/
theorem count_nonoverlapping_unique :
    countOccurrences "aa" "aaa" = 1
    ∧ searchReplace [("/proj/a.txt", "aaa")] "/proj" "a.txt" "aa" "X"
        = (srSuccessMsg "a.txt", [("/proj/a.txt", "Xa")]) :=
  ⟨rfl, rfl⟩

/-- C10 counterexample: the claim says every explicit line range on an
existing file yields exactly the clamped inclusive range.  An explicit
end line of `0` is falsy in JavaScript and is treated as "no bound":
`read_file(f.txt, 1, 0)` on a two-line file returns both lines, while
the claim's clamped inclusive range `[1, 0]` is empty. -/
theorem readFile_end_zero_cex :
    readFileObservation [("/proj/f.txt", "a\nb")] "/proj" "f.txt" (some 1) (some 0)
      = "Contents of f.txt (lines 1-2):\na\nb"
    ∧ claimClampedRange 1 0 (splitLines "a\nb") = []
    ∧ readFileSelect (splitLines "a\nb") (some 1) (some 0)
        ≠ claimClampedRange 1 0 (splitLines "a\nb") :=
  ⟨rfl, rfl, by decide⟩

/-- C10 (amended): for an explicit line range whose end line is at least
1, a ranged `read_file` never errors and selects exactly the claim's
clamped inclusive range — any start line below 1 (zero or negative) is
clamped to the first line and an end line beyond the last line is
clamped to the last line; an end line of 0 is instead treated as absent
(reading to the end of the file). -/
theorem readFileSelect_clamps (lines : List String) (s e : Int) (he : 1 ≤ e) :
    readFileSelect lines (some s) (some e) = claimClampedRange s e lines := by
  have he0 : e ≠ 0 := by omega
  have hstop : rfEnd (lines.length : Int) (some e) = min (lines.length : Int) e := by
    simp [rfEnd, he0]
  have hlen0 : (0 : Int) ≤ (lines.length : Int) := Int.ofNat_nonneg _
  have hstart0 : 0 ≤ rfStart (some s) := by
    simp only [rfStart]
    split <;> omega
  simp only [readFileSelect, jsSlice, claimClampedRange, hstop,
    if_neg (by omega : ¬ min (lines.length : Int) e < 0),
    if_neg (by omega : ¬ rfStart (some s) < 0)]
  have htake : (min (min (lines.length : Int) e) (lines.length : Int)).toNat
      = (min (lines.length : Int) e).toNat := by omega
  rw [htake]
  apply drop_congr_of
  have hX : (lines.take (min (lines.length : Int) e).toNat).length ≤ lines.length := by
    simp [List.length_take]
  simp only [rfStart] at hstart0 ⊢
  by_cases hs0 : s = 0
  · left
    simp only [hs0, if_pos rfl]
    omega
  · rw [if_neg hs0] at hstart0 ⊢
    by_cases hsl : max 0 (s - 1) ≤ (lines.length : Int)
    · left
      omega
    · right
      constructor
      · omega
      · omega

/-- C10 witness: a range with a start below 1 and an end beyond the last
line is clamped to the whole three-line file. -/
theorem readFileSelect_clamps_witness :
    readFileSelect ["a", "b", "c"] (some (-5)) (some 7)
      = claimClampedRange (-5) 7 ["a", "b", "c"] :=
  readFileSelect_clamps ["a", "b", "c"] (-5) 7 (by decide)

end AiPunk
